import Mathlib

/-!
Verification development for the cart/session state manager of a
client-side storefront (`src/main.js`).

Shallow embedding conventions:
* JSON numbers used as ids are modelled as `Int`; the `parseInt(id, 10)`
  normalisation performed by the code before every comparison is modelled
  by taking the already-normalised numeric id as the argument.
* Prices are modelled as `Rat` (decimal values in the fixture).
* JS arrays become `List`s; `Array.prototype.findIndex`, `filter`,
  `splice(i, 1)` and in-place element update are modelled by the
  executable functions `findIndex`, `List.filter`, `removeAt`, `updateAt`.
* Functions that alert/log and return early on bad input are modelled as
  returning the unchanged store together with an error code.
* `localStorage` / `sessionStorage` cells are modelled by a small inductive
  of the three observable shapes of the stored value: no value, a value
  that `JSON.parse` rejects (in JS the exception propagates, modelled as
  `Except.error`), and a decodable value.
-/

/-- Catalog record, as in `data/products.json` (fields read by `main.js`). -/
structure Product where
  id : Int
  name : String
  price : Rat
  image_url : String
  description : String
  sizes : List String
  category : String
deriving DecidableEq

/-- Cart line item, with the field set pushed by `addToCart` in `main.js`
(`id`, `name`, `price`, `image_url`, `quantity`, `size`). -/
structure CartLine where
  id : Int
  name : String
  price : Rat
  image_url : String
  quantity : Int
  size : String
deriving DecidableEq

/-- Error outcomes of `addToCart`'s three early returns. -/
inductive AddError where
  | missingSize
  | nonPositiveQuantity
  | productNotFound
deriving DecidableEq

/-- `fetchProductById`: `products.find(p => p.id === productId)` after
`parseInt` normalisation of the requested id. -/
def fetchProductById (products : List Product) (id : Int) : Option Product :=
  products.find? (fun p => p.id == id)

/-- Predicate used by `addToCart` / `removeFromCart` / `updateCartQuantity`:
`item.id === pid && item.size === size`. -/
def cartLineMatches (pid : Int) (size : String) (item : CartLine) : Bool :=
  item.id == pid && item.size == size

/-- `Array.prototype.findIndex`: index of the first element satisfying `p`. -/
def findIndex (p : CartLine → Bool) : List CartLine → Option Nat
  | [] => none
  | item :: rest => if p item then some 0 else (findIndex p rest).map (· + 1)

/-- In-place update of the element at index `i` (JS `cart[i].quantity = ...`). -/
def updateAt : List CartLine → Nat → (CartLine → CartLine) → List CartLine
  | [], _, _ => []
  | x :: rest, 0, f => f x :: rest
  | x :: rest, i + 1, f => x :: updateAt rest i f

/-- JS `cart.splice(i, 1)`: remove the element at index `i`. -/
def removeAt : List CartLine → Nat → List CartLine
  | [], _ => []
  | _ :: rest, 0 => rest
  | x :: rest, i + 1 => x :: removeAt rest i

/-- `addToCart(productId, quantity, size)` from `main.js`: validates size,
then quantity, then resolves the product; on success increments the first
matching `(id, size)` line in place, or appends a snapshot line. Returns
the persisted cart after the call together with the error, if any (the
early-return paths never call `saveCart`, so the cart is the input cart). -/
def addToCart (products : List Product) (cart : List CartLine)
    (productId : Int) (quantity : Int) (size : String) :
    List CartLine × Option AddError :=
  if size = "" then (cart, some .missingSize)
  else if quantity ≤ 0 then (cart, some .nonPositiveQuantity)
  else
    match fetchProductById products productId with
    | none => (cart, some .productNotFound)
    | some product =>
      match findIndex (cartLineMatches product.id size) cart with
      | some i =>
          (updateAt cart i (fun item => { item with quantity := item.quantity + quantity }),
           none)
      | none =>
          (cart ++ [{ id := product.id, name := product.name, price := product.price,
                      image_url := product.image_url, quantity := quantity, size := size }],
           none)

/-- `removeFromCart(productId, size)`:
`cart.filter(item => !(item.id === idToRemove && item.size === size))`. -/
def removeFromCart (cart : List CartLine) (productId : Int) (size : String) :
    List CartLine :=
  cart.filter (fun item => !(cartLineMatches productId size item))

/-- `updateCartQuantity(productId, size, newQuantity)`: finds the first
matching line; sets its quantity when `newQuantity > 0`, splices it out
when `newQuantity ≤ 0`; logs and leaves the cart alone when absent. -/
def updateCartQuantity (cart : List CartLine) (productId : Int) (size : String)
    (newQuantity : Int) : List CartLine :=
  match findIndex (cartLineMatches productId size) cart with
  | some i =>
      if newQuantity > 0 then
        updateAt cart i (fun item => { item with quantity := newQuantity })
      else
        removeAt cart i
  | none => cart

/-- Key of a cart line for the uniqueness invariant: the `(productId, size)`
pair. -/
def keyOf (item : CartLine) : Int × String :=
  (item.id, item.size)

/-- Cart invariant: at most one line per distinct `(productId, size)` pair,
and every line's quantity is an integer `≥ 1`. -/
def CartInv (cart : List CartLine) : Prop :=
  (cart.map keyOf).Nodup ∧ ∀ item ∈ cart, 1 ≤ item.quantity

instance (cart : List CartLine) : Decidable (CartInv cart) := by
  unfold CartInv; infer_instance

/-- Account record, as in `data/users.json`; `registerUser` fills `address`
with the empty string. -/
structure User where
  id : Int
  name : String
  email : String
  password : String
  address : String
deriving DecidableEq

/-- Session-scoped in-memory user directory: the module-level `sessionUsers`
array plus, for the re-fetch analysis, a count of fixture fetch attempts. -/
structure UserState where
  sessionUsers : List User
  fetches : Nat
deriving DecidableEq

/-- `fetchUsers()` from `main.js`. `src` is the outcome of fetching
`data/users.json` (`none` models a failed fetch, which the code turns into
an empty list). The code returns the cached `sessionUsers` whenever it is
non-empty; otherwise it fetches and seeds `sessionUsers` with a copy of the
result. `fetches` counts the fetch attempts. -/
def fetchUsers (src : Option (List User)) (st : UserState) :
    List User × UserState :=
  if 0 < st.sessionUsers.length then
    (st.sessionUsers, st)
  else
    match src with
    | some users => (users, { sessionUsers := users, fetches := st.fetches + 1 })
    | none => ([], { sessionUsers := [], fetches := st.fetches + 1 })

/-- `Math.max(...users.map(u => u.id))` (meaningful for non-empty `users`;
the code only evaluates it under `users.length > 0`). -/
def maxId : List User → Int
  | [] => 0
  | u :: rest => rest.foldl (fun m v => max m v.id) u.id

/-- Id allocation of `registerUser`:
`users.length > 0 ? Math.max(...users.map(u => u.id)) + 1 : 1`. -/
def allocId (users : List User) : Int :=
  if 0 < users.length then maxId users + 1 else 1

/-- `registerUser(name, email, password)`: fetches the directory, rejects a
duplicate email (exact match), otherwise allocates
`max(existing ids) + 1` (or `1` for an empty directory), pushes the new
user onto `sessionUsers` (the fixture `src` is a read-only input and is
never rewritten), and saves the new user as the current session. Returns
the JS boolean result, the new directory state, and the session cell. -/
def registerUser (src : Option (List User)) (st : UserState)
    (session : Option User) (name email password : String) :
    Bool × UserState × Option User :=
  let fetched := fetchUsers src st
  let users := fetched.1
  let st1 := fetched.2
  if users.any (fun u => u.email == email) then
    (false, st1, session)
  else
    let newUser : User :=
      { id := allocId users,
        name := name, email := email, password := password, address := "" }
    (true, { st1 with sessionUsers := st1.sessionUsers ++ [newUser] }, some newUser)

/-- `loginUser(email, password)`: finds the first user with the exact email
and compares the password with exact equality; on success saves that user as
the session, otherwise alerts generically and leaves the session alone. -/
def loginUser (src : Option (List User)) (st : UserState)
    (session : Option User) (email password : String) :
    Bool × UserState × Option User :=
  let fetched := fetchUsers src st
  let users := fetched.1
  let st1 := fetched.2
  match users.find? (fun u => u.email == email) with
  | some u =>
      if u.password == password then (true, st1, some u) else (false, st1, session)
  | none => (false, st1, session)

/-- Observable shapes of the `localStorage` cell under `shoppingCart`:
no stored string (or the falsy empty string), a stored string that
`JSON.parse` rejects, or a decodable cart. -/
inductive StoredCart where
  | absent
  | corrupt
  | value (cart : List CartLine)
deriving DecidableEq

/-- Observable shapes of the `sessionStorage` cell under `currentUser`. -/
inductive StoredSession where
  | absent
  | corrupt
  | value (u : User)
deriving DecidableEq

/-- Decode failure of a stored cell: in JS, `JSON.parse` throws a
`SyntaxError`, which `getCart` / `getCurrentUser` do not catch. -/
inductive StorageError where
  | parseError
deriving DecidableEq

/-- `getCart()`: `cartJson ? JSON.parse(cartJson) : []`. There is no
try/catch, so an undecodable stored string makes `JSON.parse` throw
(modelled as `Except.error`). -/
def getCart : StoredCart → Except StorageError (List CartLine)
  | .absent => .ok []
  | .corrupt => .error .parseError
  | .value cart => .ok cart

/-- `getCurrentUser()`: `userJson ? JSON.parse(userJson) : null`. Again no
try/catch around `JSON.parse`. -/
def getCurrentUser : StoredSession → Except StorageError (Option User)
  | .absent => .ok none
  | .corrupt => .error .parseError
  | .value u => .ok (some u)

/-! ### Helper lemmas -/

theorem findIndex_eq_none_iff (p : CartLine → Bool) (l : List CartLine) :
    findIndex p l = none ↔ ∀ x ∈ l, p x = false := by
  induction l with
  | nil => simp [findIndex]
  | cons a l ih =>
    by_cases h : p a <;> simp [findIndex, h, ih]

theorem updateAt_length (f : CartLine → CartLine) :
    ∀ (l : List CartLine) (i : Nat), (updateAt l i f).length = l.length := by
  intro l
  induction l with
  | nil => intro i; simp [updateAt]
  | cons a l ih =>
    intro i
    cases i with
    | zero => simp [updateAt]
    | succ i => simp [updateAt, ih]

theorem updateAt_get?_self (f : CartLine → CartLine) :
    ∀ (l : List CartLine) (i : Nat), (updateAt l i f).get? i = (l.get? i).map f := by
  intro l
  induction l with
  | nil => intro i; simp [updateAt]
  | cons a l ih =>
    intro i
    cases i with
    | zero => simp [updateAt]
    | succ i => simpa [updateAt] using ih i

theorem updateAt_get?_ne (f : CartLine → CartLine) :
    ∀ (l : List CartLine) (i j : Nat), j ≠ i → (updateAt l i f).get? j = l.get? j := by
  intro l
  induction l with
  | nil => intro i j _; simp [updateAt]
  | cons a l ih =>
    intro i j hne
    cases i with
    | zero =>
      cases j with
      | zero => exact absurd rfl hne
      | succ j => simp [updateAt]
    | succ i =>
      cases j with
      | zero => simp [updateAt]
      | succ j =>
        have : j ≠ i := fun h => hne (by simp [h])
        simpa [updateAt] using ih i j this

theorem mem_updateAt (f : CartLine → CartLine) :
    ∀ (l : List CartLine) (i : Nat) (x : CartLine),
      x ∈ updateAt l i f → x ∈ l ∨ ∃ y ∈ l, x = f y := by
  intro l
  induction l with
  | nil => intro i x hx; simp [updateAt] at hx
  | cons a l ih =>
    intro i x hx
    cases i with
    | zero =>
      rcases (by simpa [updateAt] using hx : x = f a ∨ x ∈ l) with h | h
      · exact Or.inr ⟨a, by simp, h⟩
      · exact Or.inl (by simp [h])
    | succ i =>
      rcases (by simpa [updateAt] using hx : x = a ∨ x ∈ updateAt l i f) with h | h
      · exact Or.inl (by simp [h])
      · rcases ih i x h with h' | ⟨y, hy, hxy⟩
        · exact Or.inl (by simp [h'])
        · exact Or.inr ⟨y, by simp [hy], hxy⟩

theorem map_keyOf_updateAt (f : CartLine → CartLine)
    (hf : ∀ y, keyOf (f y) = keyOf y) :
    ∀ (l : List CartLine) (i : Nat), (updateAt l i f).map keyOf = l.map keyOf := by
  intro l
  induction l with
  | nil => intro i; simp [updateAt]
  | cons a l ih =>
    intro i
    cases i with
    | zero => simp [updateAt, hf]
    | succ i => simp [updateAt, ih]

theorem removeAt_sublist :
    ∀ (l : List CartLine) (i : Nat), (removeAt l i).Sublist l := by
  intro l
  induction l with
  | nil => intro i; simp [removeAt]
  | cons a l ih =>
    intro i
    cases i with
    | zero =>
      show (removeAt (a :: l) 0).Sublist (a :: l)
      exact List.sublist_cons_self a l
    | succ i => simpa [removeAt] using (ih i).cons₂ a

theorem nodup_append_singleton {α : Type} (l : List α) (a : α)
    (hl : l.Nodup) (ha : a ∉ l) : (l ++ [a]).Nodup := by
  induction l with
  | nil => simp
  | cons x l ih =>
    rcases List.nodup_cons.mp hl with ⟨hx, hl'⟩
    have hax : a ∉ l := fun h => ha (List.mem_cons_of_mem x h)
    have hxa : x ≠ a := fun h => ha (by simp [h])
    refine List.nodup_cons.mpr ⟨?_, ih hl' hax⟩
    simpa using ⟨hx, hxa⟩

theorem length_filter_and_not {α : Type} [DecidableEq α]
    (p : α → Bool) (item : α) (hitem : p item = false) :
    ∀ l : List α,
      (l.filter (fun x => decide (x = item) && !(p x))).length
        = (l.filter (fun x => decide (x = item))).length := by
  intro l
  induction l with
  | nil => rfl
  | cons a l ih =>
    by_cases hae : a = item
    · subst hae; simp [List.filter_cons, hitem, ih]
    · simp [List.filter_cons, hae, ih]

theorem length_filter_eq_of_pred_false {α : Type} [DecidableEq α]
    (p : α → Bool) (item : α) (hitem : p item = false) :
    ∀ l : List α,
      ((l.filter (fun x => !(p x))).filter (fun x => decide (x = item))).length
        = (l.filter (fun x => decide (x = item))).length := by
  intro l
  rw [List.filter_filter]
  exact length_filter_and_not p item hitem l

/-! ### Claim theorems -/

/-- C10: for every stored cart (including one that violates the uniqueness
invariant), `removeFromCart(productId, size)` removes every line whose id
equals the (normalised) product id and whose size equals `size` — no
matching line remains — while keeping the remaining lines in their relative
order (the result is a sublist of the input) and preserving the
multiplicity of every non-matching line. -/
theorem removeFromCart_spec (cart : List CartLine) (pid : Int) (s : String) :
    (∀ item ∈ removeFromCart cart pid s, ¬(item.id = pid ∧ item.size = s)) ∧
    (removeFromCart cart pid s).Sublist cart ∧
    (∀ item : CartLine, ¬(item.id = pid ∧ item.size = s) →
      ((removeFromCart cart pid s).filter (fun x => decide (x = item))).length
        = (cart.filter (fun x => decide (x = item))).length) := by
  refine ⟨?_, ?_, ?_⟩
  · intro item hmem
    simp [removeFromCart, cartLineMatches, List.mem_filter] at hmem
    intro hk
    rcases hmem.2 with h | h
    · exact h hk.1
    · exact h hk.2
  · exact List.filter_sublist cart
  · intro item hitem
    have hif : cartLineMatches pid s item = false := by
      unfold cartLineMatches
      by_cases h1 : item.id = pid
      · by_cases h2 : item.size = s
        · exact absurd ⟨h1, h2⟩ hitem
        · simp [h2]
      · simp [h1]
    exact length_filter_eq_of_pred_false (cartLineMatches pid s) item hif cart

/-- C10 witness: on a cart that holds two copies of the same `(id, size)`
line plus one line of a different size, removal deletes both copies and
keeps the non-matching line with its multiplicity. -/
theorem removeFromCart_spec_witness :
    ¬((⟨1, "T", 10, "i", 2, "S"⟩ : CartLine).id = 1 ∧
        (⟨1, "T", 10, "i", 2, "S"⟩ : CartLine).size = "M") ∧
    ((removeFromCart [⟨1, "T", 10, "i", 2, "M"⟩, ⟨1, "T", 10, "i", 2, "S"⟩,
        ⟨1, "T", 10, "i", 2, "M"⟩] 1 "M").filter
          (fun x => decide (x = (⟨1, "T", 10, "i", 2, "S"⟩ : CartLine)))).length
      = (([⟨1, "T", 10, "i", 2, "M"⟩, ⟨1, "T", 10, "i", 2, "S"⟩,
          ⟨1, "T", 10, "i", 2, "M"⟩] : List CartLine).filter
            (fun x => decide (x = (⟨1, "T", 10, "i", 2, "S"⟩ : CartLine)))).length := by
  refine ⟨by decide, ?_⟩
  exact (removeFromCart_spec [⟨1, "T", 10, "i", 2, "M"⟩, ⟨1, "T", 10, "i", 2, "S"⟩,
    ⟨1, "T", 10, "i", 2, "M"⟩] 1 "M").2.2 ⟨1, "T", 10, "i", 2, "S"⟩ (by decide)

/-- C5: `addToCart` fails with `missingSize` when the size is empty, with
`nonPositiveQuantity` when (the size is present and) the quantity is `≤ 0`,
and with `productNotFound` when (both validations pass and) the product id
does not resolve through the fixture; in each failure case the persisted
cart is exactly the input cart. -/
theorem addToCart_failure_spec (products : List Product) (cart : List CartLine)
    (pid : Int) (q : Int) (s : String) :
    (s = "" → addToCart products cart pid q s = (cart, some .missingSize)) ∧
    (s ≠ "" → q ≤ 0 → addToCart products cart pid q s = (cart, some .nonPositiveQuantity)) ∧
    (s ≠ "" → 0 < q → fetchProductById products pid = none →
      addToCart products cart pid q s = (cart, some .productNotFound)) := by
  refine ⟨?_, ?_, ?_⟩
  · intro hs
    simp [addToCart, hs]
  · intro hs hq
    simp [addToCart, hs, hq]
  · intro hs hq hp
    simp [addToCart, hs, hp, Int.not_le.mpr hq]

/-- C5 witness: the three failure cases at concrete inputs, each leaving
the concrete cart untouched. -/
theorem addToCart_failure_spec_witness :
    addToCart [] [⟨1, "T", 10, "i", 2, "M"⟩] 1 1 ""
        = ([⟨1, "T", 10, "i", 2, "M"⟩], some .missingSize) ∧
    addToCart [] [⟨1, "T", 10, "i", 2, "M"⟩] 1 0 "M"
        = ([⟨1, "T", 10, "i", 2, "M"⟩], some .nonPositiveQuantity) ∧
    addToCart [] [⟨1, "T", 10, "i", 2, "M"⟩] 7 1 "M"
        = ([⟨1, "T", 10, "i", 2, "M"⟩], some .productNotFound) :=
  ⟨(addToCart_failure_spec [] [⟨1, "T", 10, "i", 2, "M"⟩] 1 1 "").1 rfl,
   (addToCart_failure_spec [] [⟨1, "T", 10, "i", 2, "M"⟩] 1 0 "M").2.1 (by decide) (by decide),
   (addToCart_failure_spec [] [⟨1, "T", 10, "i", 2, "M"⟩] 7 1 "M").2.2 (by decide) (by decide) rfl⟩

/-- C6 counterexample: the claim says an undecodable stored value yields the
empty cart / no user without raising; but `getCart` and `getCurrentUser`
call `JSON.parse` with no try/catch, so on a corrupt cell the decode error
propagates to the caller instead. -/
theorem storage_corrupt_raises :
    getCart StoredCart.corrupt = Except.error StorageError.parseError ∧
    getCart StoredCart.corrupt ≠ Except.ok ([] : List CartLine) ∧
    getCurrentUser StoredSession.corrupt = Except.error StorageError.parseError ∧
    getCurrentUser StoredSession.corrupt ≠ Except.ok (none : Option User) := by
  refine ⟨rfl, by simp [getCart], rfl, by simp [getCurrentUser]⟩

/-- C6 amended: `getCart` returns the decoded cart, or the empty sequence
when nothing is stored; `getCurrentUser` returns the decoded user, or none
when nothing is stored; but when the stored data is undecodable both
propagate the decode error (`JSON.parse` throws) rather than failing
closed. -/
theorem storage_read_spec (cart : List CartLine) (u : User) :
    getCart StoredCart.absent = Except.ok [] ∧
    getCart (StoredCart.value cart) = Except.ok cart ∧
    getCart StoredCart.corrupt = Except.error StorageError.parseError ∧
    getCurrentUser StoredSession.absent = Except.ok none ∧
    getCurrentUser (StoredSession.value u) = Except.ok (some u) ∧
    getCurrentUser StoredSession.corrupt = Except.error StorageError.parseError :=
  ⟨rfl, rfl, rfl, rfl, rfl, rfl⟩

/-- C4 counterexample: on a stored cart that violates the uniqueness
invariant by holding two lines with the same `(productId, size)`,
`updateCartQuantity(id, size, 0)` splices out only the first matching line
while `removeFromCart(id, size)` filters out both, so the two calls do not
produce the same resulting sequence for every cart. -/
theorem updateCartQuantity_nonpos_ne_remove :
    updateCartQuantity [⟨1, "T", 10, "i", 2, "M"⟩, ⟨1, "T", 10, "i", 2, "M"⟩] 1 "M" 0
      ≠ removeFromCart [⟨1, "T", 10, "i", 2, "M"⟩, ⟨1, "T", 10, "i", 2, "M"⟩] 1 "M" := by
  decide

/-- C4 amended: for every cart holding at most one line matching
`(productId, size)` — in particular every cart satisfying the uniqueness
invariant — `updateCartQuantity(id, size, n)` with `n ≤ 0` produces exactly
the same resulting sequence as `removeFromCart(id, size)`: the matching
line is deleted rather than an error raised, and the relative order of the
other lines is unchanged. -/
theorem updateCartQuantity_nonpos_eq_remove (cart : List CartLine) (pid : Int)
    (s : String) (n : Int) (hn : n ≤ 0)
    (huniq : cart.countP (cartLineMatches pid s) ≤ 1) :
    updateCartQuantity cart pid s n = removeFromCart cart pid s := by
  have hnpos : ¬(0 < n) := not_lt.mpr hn
  induction cart with
  | nil => simp [updateCartQuantity, removeFromCart, findIndex]
  | cons a rest ih =>
    by_cases hm : cartLineMatches pid s a = true
    · have h0 : rest.countP (cartLineMatches pid s) = 0 := by
        simp only [List.countP_cons] at huniq
        rw [if_pos hm] at huniq
        omega
      have hall : ∀ x ∈ rest, ¬(cartLineMatches pid s x = true) :=
        List.countP_eq_zero.mp h0
      have hfilter : rest.filter (fun item => !(cartLineMatches pid s item)) = rest := by
        refine List.filter_eq_self.mpr ?_
        intro x hx
        have := hall x hx
        revert this
        cases cartLineMatches pid s x <;> simp
      simp [updateCartQuantity, removeFromCart, findIndex, hm, hnpos, removeAt,
        List.filter_cons, hfilter]
    · have hrest : rest.countP (cartLineMatches pid s) ≤ 1 := by
        simp only [List.countP_cons] at huniq
        rw [if_neg hm] at huniq
        omega
      have ih' := ih hrest
      cases h : findIndex (cartLineMatches pid s) rest with
      | none =>
        have hrfc : removeFromCart rest pid s = rest := by
          rw [← ih' ]
          simp [updateCartQuantity, h]
        simp [updateCartQuantity, removeFromCart, findIndex, hm, h, List.filter_cons]
        rw [show rest.filter (fun item => !(cartLineMatches pid s item)) = rest from hrfc]
      | some i =>
        have hstep : removeAt rest i = removeFromCart rest pid s := by
          rw [← ih']
          simp [updateCartQuantity, h, hnpos]
        simp [updateCartQuantity, removeFromCart, findIndex, hm, h, hnpos, removeAt,
          List.filter_cons]
        rw [show removeAt rest i = rest.filter (fun item => !(cartLineMatches pid s item))
          from hstep]

/-- C4 witness: at a concrete two-line cart satisfying the uniqueness
invariant, `updateCartQuantity(1, "M", 0)` and `removeFromCart(1, "M")`
agree. -/
theorem updateCartQuantity_nonpos_eq_remove_witness :
    updateCartQuantity [⟨1, "T", 10, "i", 2, "M"⟩, ⟨2, "U", 12, "j", 3, "S"⟩] 1 "M" 0
      = removeFromCart [⟨1, "T", 10, "i", 2, "M"⟩, ⟨2, "U", 12, "j", 3, "S"⟩] 1 "M" :=
  updateCartQuantity_nonpos_eq_remove
    [⟨1, "T", 10, "i", 2, "M"⟩, ⟨2, "U", 12, "j", 3, "S"⟩] 1 "M" 0
    (by decide) (by decide)

/-- C1: when the product id resolves to product `P`, the size is present and
the quantity is positive, `addToCart` succeeds; if the cart already holds a
line for `(P.id, size)` (first match at index `i`), that line's quantity is
incremented by `q` in place — same position, same length, every other line
untouched, so no second line for the pair appears; otherwise a new line is
appended at the end, snapshotting `P`'s current name, price and image with
quantity `q`. In particular two `addToCart(P.id, 1, s)` calls on an empty
cart yield exactly one line with quantity 2. -/
theorem addToCart_success_spec (products : List Product) (cart : List CartLine)
    (pid : Int) (q : Int) (s : String) (P : Product)
    (hP : fetchProductById products pid = some P) (hq : 0 < q) (hs : s ≠ "") :
    (addToCart products cart pid q s).2 = none ∧
    (∀ i, findIndex (cartLineMatches P.id s) cart = some i →
      (addToCart products cart pid q s).1.length = cart.length ∧
      (addToCart products cart pid q s).1.get? i
        = (cart.get? i).map (fun item => { item with quantity := item.quantity + q }) ∧
      ∀ j, j ≠ i → (addToCart products cart pid q s).1.get? j = cart.get? j) ∧
    (findIndex (cartLineMatches P.id s) cart = none →
      (addToCart products cart pid q s).1
        = cart ++ [⟨P.id, P.name, P.price, P.image_url, q, s⟩]) ∧
    (addToCart products ((addToCart products [] pid 1 s).1) pid 1 s).1
      = [⟨P.id, P.name, P.price, P.image_url, 2, s⟩] := by
  have hq' : ¬(q ≤ 0) := not_le.mpr hq
  have hq1 : ¬((1 : Int) ≤ 0) := by norm_num
  have h1 : (addToCart products [] pid 1 s).1
      = [⟨P.id, P.name, P.price, P.image_url, 1, s⟩] := by
    simp [addToCart, hs, hq1, hP, findIndex]
  refine ⟨?_, ?_, ?_, ?_⟩
  · simp only [addToCart, if_neg hs, if_neg hq', hP]
    cases hfi : findIndex (cartLineMatches P.id s) cart <;> simp [hfi]
  · intro i hi
    simp only [addToCart, if_neg hs, if_neg hq', hP, hi]
    exact ⟨updateAt_length _ cart i, updateAt_get?_self _ cart i,
      fun j hj => updateAt_get?_ne _ cart i j hj⟩
  · intro hnone
    simp only [addToCart, if_neg hs, if_neg hq', hP, hnone]
  · rw [h1]
    simp [addToCart, hs, hq1, hP, findIndex, cartLineMatches, updateAt]

/-- C1 witness: with a one-product fixture, adding `(id 1, size "M")` twice
to the empty cart yields a single line with quantity 2. -/
theorem addToCart_success_spec_witness :
    (addToCart [⟨1, "Tee", 10, "t.png", "d", ["M"], "kids"⟩]
      ((addToCart [⟨1, "Tee", 10, "t.png", "d", ["M"], "kids"⟩] [] 1 1 "M").1) 1 1 "M").1
      = [⟨1, "Tee", 10, "t.png", 2, "M"⟩] :=
  (addToCart_success_spec [⟨1, "Tee", 10, "t.png", "d", ["M"], "kids"⟩] [] 1 1 "M"
    ⟨1, "Tee", 10, "t.png", "d", ["M"], "kids"⟩ (by decide) (by decide) (by decide)).2.2.2

/-- C2: each cart mutation preserves the cart invariant — starting from a
cart with at most one line per `(productId, size)` pair and every quantity
an integer `≥ 1`, the cart after `addToCart`, `removeFromCart` or
`updateCartQuantity` satisfies both conditions again; and distinct sizes of
the same product occupy independent lines (adding the same product twice
with two different sizes produces two separate lines). -/
theorem cart_mutations_preserve_invariant (products : List Product)
    (cart : List CartLine) (pid : Int) (q : Int) (s : String) (n : Int)
    (hinv : CartInv cart) :
    CartInv (addToCart products cart pid q s).1 ∧
    CartInv (removeFromCart cart pid s) ∧
    CartInv (updateCartQuantity cart pid s n) ∧
    (∀ (s2 : String) (P : Product), s ≠ "" → s2 ≠ "" → s ≠ s2 →
      fetchProductById products pid = some P →
      (addToCart products ((addToCart products [] pid 1 s).1) pid 1 s2).1
        = [⟨P.id, P.name, P.price, P.image_url, 1, s⟩,
           ⟨P.id, P.name, P.price, P.image_url, 1, s2⟩]) := by
  refine ⟨?_, ?_, ?_, ?_⟩
  · by_cases hs : s = ""
    · simpa [addToCart, hs] using hinv
    · by_cases hq : q ≤ 0
      · simpa [addToCart, hs, hq] using hinv
      · cases hP : fetchProductById products pid with
        | none => simpa [addToCart, hs, hq, hP] using hinv
        | some P =>
          have hq0 : 0 < q := not_le.mp hq
          cases hfi : findIndex (cartLineMatches P.id s) cart with
          | some i =>
            simp only [addToCart, if_neg hs, if_neg hq, hP, hfi]
            constructor
            · rw [map_keyOf_updateAt
                (fun item => { item with quantity := item.quantity + q }) (fun y => rfl) cart i]
              exact hinv.1
            · intro x hx
              rcases mem_updateAt _ cart i x hx with hx' | ⟨y, hy, rfl⟩
              · exact hinv.2 x hx'
              · have := hinv.2 y hy
                show 1 ≤ y.quantity + q
                omega
          | none =>
            simp only [addToCart, if_neg hs, if_neg hq, hP, hfi]
            constructor
            · rw [List.map_append]
              refine nodup_append_singleton _ _ hinv.1 ?_
              intro hmem
              rcases List.mem_map.mp hmem with ⟨x, hx, hk⟩
              have hfalse := (findIndex_eq_none_iff _ cart).mp hfi x hx
              have h1 : x.id = P.id := congrArg Prod.fst hk
              have h2 : x.size = s := congrArg Prod.snd hk
              simp [cartLineMatches, h1, h2] at hfalse
            · intro x hx
              rcases List.mem_append.mp hx with hx' | hx'
              · exact hinv.2 x hx'
              · have : x = ⟨P.id, P.name, P.price, P.image_url, q, s⟩ := by
                  simpa using hx'
                rw [this]
                exact hq0
  · constructor
    · have hsub : ((removeFromCart cart pid s).map keyOf).Sublist (cart.map keyOf) :=
        List.Sublist.map keyOf (List.filter_sublist cart)
      exact List.Nodup.sublist hsub hinv.1
    · intro x hx
      exact hinv.2 x (List.mem_filter.mp hx).1
  · cases hfi : findIndex (cartLineMatches pid s) cart with
    | none => simpa [updateCartQuantity, hfi] using hinv
    | some i =>
      by_cases hn : 0 < n
      · simp only [updateCartQuantity, hfi, if_pos hn]
        constructor
        · rw [map_keyOf_updateAt
            (fun item => { item with quantity := n }) (fun y => rfl) cart i]
          exact hinv.1
        · intro x hx
          rcases mem_updateAt _ cart i x hx with hx' | ⟨y, hy, rfl⟩
          · exact hinv.2 x hx'
          · show 1 ≤ n
            omega
      · simp only [updateCartQuantity, hfi, if_neg hn]
        constructor
        · have hsub : ((removeAt cart i).map keyOf).Sublist (cart.map keyOf) :=
            List.Sublist.map keyOf (removeAt_sublist cart i)
          exact List.Nodup.sublist hsub hinv.1
        · intro x hx
          exact hinv.2 x ((removeAt_sublist cart i).subset hx)
  · intro s2 P hs hs2 hne hP
    have hq1 : ¬((1 : Int) ≤ 0) := by norm_num
    have h1 : (addToCart products [] pid 1 s).1
        = [⟨P.id, P.name, P.price, P.image_url, 1, s⟩] := by
      simp [addToCart, hs, hq1, hP, findIndex]
    rw [h1]
    simp [addToCart, hs2, hq1, hP, findIndex, cartLineMatches, hne]

/-- C2 witness: at a concrete one-line cart satisfying the invariant, the
invariant still holds after removal. -/
theorem cart_mutations_preserve_invariant_witness :
    CartInv (removeFromCart [⟨1, "T", 10, "i", 2, "M"⟩] 1 "M") :=
  (cart_mutations_preserve_invariant [] [⟨1, "T", 10, "i", 2, "M"⟩] 1 1 "M" 0
    (by decide)).2.1

theorem fetchUsers_fst_eq (src : Option (List User)) (st : UserState) :
    (fetchUsers src st).1 = (fetchUsers src st).2.sessionUsers := by
  unfold fetchUsers
  by_cases h : 0 < st.sessionUsers.length
  · simp [h]
  · cases src <;> simp [h]

theorem fetchUsers_of_nonempty (src : Option (List User)) (st : UserState)
    (h : st.sessionUsers ≠ []) : fetchUsers src st = (st.sessionUsers, st) := by
  unfold fetchUsers
  rw [if_pos (List.length_pos.mpr h)]

theorem le_foldl_max :
    ∀ (l : List User) (init : Int), init ≤ l.foldl (fun m v => max m v.id) init := by
  intro l
  induction l with
  | nil => intro init; simp
  | cons a l ih =>
    intro init
    calc init ≤ max init a.id := le_max_left _ _
    _ ≤ l.foldl (fun m v => max m v.id) (max init a.id) := ih _

theorem mem_le_foldl_max :
    ∀ (l : List User) (init : Int) (v : User), v ∈ l →
      v.id ≤ l.foldl (fun m v => max m v.id) init := by
  intro l
  induction l with
  | nil => intro init v hv; simp at hv
  | cons a l ih =>
    intro init v hv
    rcases List.mem_cons.mp hv with rfl | hv'
    · calc v.id ≤ max init v.id := le_max_right _ _
      _ ≤ l.foldl (fun m v => max m v.id) (max init v.id) := le_foldl_max _ _
    · exact ih _ v hv'

theorem foldl_max_le (b : Int) :
    ∀ (l : List User) (init : Int), init ≤ b → (∀ v ∈ l, v.id ≤ b) →
      l.foldl (fun m v => max m v.id) init ≤ b := by
  intro l
  induction l with
  | nil => intro init h _; simpa using h
  | cons a l ih =>
    intro init h hall
    refine ih _ (max_le h (hall a (by simp))) ?_
    intro v hv
    exact hall v (by simp [hv])

theorem le_maxId (l : List User) (v : User) (hv : v ∈ l) : v.id ≤ maxId l := by
  cases l with
  | nil => simp at hv
  | cons a rest =>
    rcases List.mem_cons.mp hv with rfl | hv'
    · exact le_foldl_max rest v.id
    · exact mem_le_foldl_max rest a.id v hv'

theorem maxId_append_singleton (l : List User) (w : User)
    (h : ∀ v ∈ l, v.id ≤ w.id) : maxId (l ++ [w]) = w.id := by
  cases l with
  | nil => simp [maxId]
  | cons a rest =>
    show (rest ++ [w]).foldl (fun m v => max m v.id) a.id = w.id
    rw [List.foldl_append]
    show max (rest.foldl (fun m v => max m v.id) a.id) w.id = w.id
    refine max_eq_right ?_
    refine foldl_max_le w.id rest a.id (h a (by simp)) ?_
    intro v hv
    exact h v (by simp [hv])

theorem allocId_gt (users : List User) : ∀ v ∈ users, v.id < allocId users := by
  intro v hv
  unfold allocId
  rw [if_pos (List.length_pos_of_mem hv)]
  have := le_maxId users v hv
  omega

theorem allocId_append (users : List User) (u : User)
    (hu : ∀ v ∈ users, v.id ≤ u.id) : allocId (users ++ [u]) = u.id + 1 := by
  unfold allocId
  rw [if_pos (by simp), maxId_append_singleton users u hu]

theorem registerUser_success_eq (src : Option (List User)) (st : UserState)
    (session : Option User) (nm e pw : String)
    (hfresh : (fetchUsers src st).1.any (fun v => v.email == e) = false) :
    registerUser src st session nm e pw
      = (true,
         ⟨(fetchUsers src st).2.sessionUsers
            ++ [(⟨allocId (fetchUsers src st).1, nm, e, pw, ""⟩ : User)],
          (fetchUsers src st).2.fetches⟩,
         some ⟨allocId (fetchUsers src st).1, nm, e, pw, ""⟩) := by
  simp only [registerUser, hfresh]
  simp

theorem registerUser_duplicate_eq (src : Option (List User)) (st : UserState)
    (session : Option User) (nm e pw : String)
    (hdup : (fetchUsers src st).1.any (fun v => v.email == e) = true) :
    registerUser src st session nm e pw = (false, (fetchUsers src st).2, session) := by
  simp only [registerUser, hdup]
  simp

/-- C3: a successful registration allocates the new id as
`max(existing ids) + 1` (`1` when the directory is empty), appends the new
user to the session overlay only (the fixture input is read-only and
untouched), and sets the new user as the current session; a second
successful registration in the same session sees the first one's overlay
entry (no re-fetch: same fetch count) and receives the next id, so from an
existing max `M` the two calls get `M + 1` and then `M + 2`. -/
theorem registerUser_allocates_ids (src : Option (List User)) (st : UserState)
    (session : Option User) (nm e pw : String)
    (hfresh : (fetchUsers src st).1.any (fun v => v.email == e) = false) :
    ∃ u : User,
      registerUser src st session nm e pw
        = (true,
           ⟨(fetchUsers src st).2.sessionUsers ++ [u], (fetchUsers src st).2.fetches⟩,
           some u) ∧
      u.name = nm ∧ u.email = e ∧ u.password = pw ∧
      ((fetchUsers src st).1 = [] → u.id = 1) ∧
      ((fetchUsers src st).1 ≠ [] →
        u.id = maxId (fetchUsers src st).1 + 1 ∧
        ∀ v ∈ (fetchUsers src st).1, v.id < u.id) ∧
      (∀ nm2 e2 pw2, (fetchUsers src st).1.any (fun v => v.email == e2) = false →
        e2 ≠ e →
        ∃ u2 : User,
          registerUser src (registerUser src st session nm e pw).2.1
              (registerUser src st session nm e pw).2.2 nm2 e2 pw2
            = (true,
               ⟨(fetchUsers src st).2.sessionUsers ++ [u, u2],
                (fetchUsers src st).2.fetches⟩,
               some u2) ∧
          u2.id = u.id + 1) := by
  have hkey := fetchUsers_fst_eq src st
  have h1 := registerUser_success_eq src st session nm e pw hfresh
  refine ⟨⟨allocId (fetchUsers src st).1, nm, e, pw, ""⟩, h1, rfl, rfl, rfl, ?_, ?_, ?_⟩
  · intro h
    show allocId (fetchUsers src st).1 = 1
    simp [allocId, h]
  · intro h
    have hlen := List.length_pos.mpr h
    constructor
    · show allocId (fetchUsers src st).1 = maxId (fetchUsers src st).1 + 1
      simp [allocId, hlen]
    · intro v hv
      exact allocId_gt (fetchUsers src st).1 v hv
  · intro nm2 e2 pw2 hfresh2 hne
    have hle : ∀ v ∈ (fetchUsers src st).2.sessionUsers,
        v.id ≤ (⟨allocId (fetchUsers src st).1, nm, e, pw, ""⟩ : User).id := by
      intro v hv
      rw [← hkey] at hv
      exact le_of_lt (allocId_gt (fetchUsers src st).1 v hv)
    have hid : allocId ((fetchUsers src st).2.sessionUsers
        ++ [(⟨allocId (fetchUsers src st).1, nm, e, pw, ""⟩ : User)])
        = allocId (fetchUsers src st).1 + 1 :=
      allocId_append _ _ hle
    have hf2 := fetchUsers_of_nonempty src
      ⟨(fetchUsers src st).2.sessionUsers
        ++ [(⟨allocId (fetchUsers src st).1, nm, e, pw, ""⟩ : User)],
       (fetchUsers src st).2.fetches⟩ (by simp)
    have hbeq : (e == e2) = false := beq_eq_false_iff_ne.mpr (fun hh => hne hh.symm)
    have hfresh2' : (fetchUsers src
        ⟨(fetchUsers src st).2.sessionUsers
          ++ [(⟨allocId (fetchUsers src st).1, nm, e, pw, ""⟩ : User)],
         (fetchUsers src st).2.fetches⟩).1.any (fun v => v.email == e2) = false := by
      rw [hf2]
      show ((fetchUsers src st).2.sessionUsers
        ++ [(⟨allocId (fetchUsers src st).1, nm, e, pw, ""⟩ : User)]).any (fun v => v.email == e2)
          = false
      rw [← hkey]
      simp [List.any_append, hfresh2, hbeq]
    have h2 := registerUser_success_eq src
      ⟨(fetchUsers src st).2.sessionUsers
        ++ [(⟨allocId (fetchUsers src st).1, nm, e, pw, ""⟩ : User)],
       (fetchUsers src st).2.fetches⟩
      (some ⟨allocId (fetchUsers src st).1, nm, e, pw, ""⟩) nm2 e2 pw2 hfresh2'
    rw [hf2] at h2
    refine ⟨(⟨allocId (fetchUsers src st).1 + 1, nm2, e2, pw2, ""⟩ : User), ?_, rfl⟩
    rw [h1]
    show registerUser src
      ⟨(fetchUsers src st).2.sessionUsers
        ++ [(⟨allocId (fetchUsers src st).1, nm, e, pw, ""⟩ : User)],
       (fetchUsers src st).2.fetches⟩
      (some ⟨allocId (fetchUsers src st).1, nm, e, pw, ""⟩) nm2 e2 pw2 = _
    rw [h2]
    rw [hid]
    simp

/-- C3 witness: with a fixture whose max id is 5, the first registration in
a fresh session gets id 6 and the second gets id 7, both appended to the
overlay with the fixture untouched. -/
theorem registerUser_allocates_ids_witness :
    ∃ u : User,
      registerUser (some [⟨5, "A", "a@x", "pw", ""⟩]) ⟨[], 0⟩ none "B" "b@x" "q"
        = (true, ⟨[⟨5, "A", "a@x", "pw", ""⟩] ++ [u], 1⟩, some u) ∧
      u.id = 6 ∧
      ∃ u2 : User,
        registerUser (some [⟨5, "A", "a@x", "pw", ""⟩])
            (registerUser (some [⟨5, "A", "a@x", "pw", ""⟩]) ⟨[], 0⟩ none "B" "b@x" "q").2.1
            (registerUser (some [⟨5, "A", "a@x", "pw", ""⟩]) ⟨[], 0⟩ none "B" "b@x" "q").2.2
            "C" "c@x" "r"
          = (true, ⟨[⟨5, "A", "a@x", "pw", ""⟩] ++ [u, u2], 1⟩, some u2) ∧
        u2.id = 7 := by
  obtain ⟨u, hu, _, _, _, _, hpos, hseq⟩ :=
    registerUser_allocates_ids (some [⟨5, "A", "a@x", "pw", ""⟩]) ⟨[], 0⟩ none
      "B" "b@x" "q" (by decide)
  obtain ⟨hid6, _⟩ := hpos (by decide)
  obtain ⟨u2, hu2, hid7⟩ := hseq "C" "c@x" "r" (by decide) (by decide)
  refine ⟨u, ?_, ?_, u2, ?_, ?_⟩
  · exact hu
  · rw [hid6]; decide
  · exact hu2
  · rw [hid7, hid6]; decide

/-- C7: registration with an email that exactly (case-sensitively) equals
an existing user's email (fixture plus overlay, i.e. the fetched directory)
fails, appends nothing (the state is exactly the post-fetch state), leaves
the session untouched, and the user directory as subsequently observed
through `fetchUsers` is unchanged (hence its size too). -/
theorem registerUser_duplicate_email_spec (src : Option (List User))
    (st : UserState) (session : Option User) (nm e pw : String)
    (hdup : (fetchUsers src st).1.any (fun v => v.email == e) = true) :
    registerUser src st session nm e pw = (false, (fetchUsers src st).2, session) ∧
    (fetchUsers src (registerUser src st session nm e pw).2.1).1
      = (fetchUsers src st).1 := by
  have heq := registerUser_duplicate_eq src st session nm e pw hdup
  refine ⟨heq, ?_⟩
  have hne : (fetchUsers src st).1 ≠ [] := by
    intro h
    rw [h] at hdup
    simp at hdup
  have hne' : (fetchUsers src st).2.sessionUsers ≠ [] := by
    rw [← fetchUsers_fst_eq]
    exact hne
  rw [heq]
  show (fetchUsers src (fetchUsers src st).2).1 = (fetchUsers src st).1
  rw [fetchUsers_of_nonempty src _ hne']
  exact (fetchUsers_fst_eq src st).symm

/-- C7 witness: registering with the fixture user's own email fails and
leaves the observed directory as it was. -/
theorem registerUser_duplicate_email_spec_witness :
    registerUser (some [⟨5, "A", "a@x", "pw", ""⟩]) ⟨[], 0⟩ none "Z" "a@x" "q"
      = (false, (fetchUsers (some [⟨5, "A", "a@x", "pw", ""⟩]) ⟨[], 0⟩).2, none) ∧
    (fetchUsers (some [⟨5, "A", "a@x", "pw", ""⟩])
        (registerUser (some [⟨5, "A", "a@x", "pw", ""⟩]) ⟨[], 0⟩
          none "Z" "a@x" "q").2.1).1
      = (fetchUsers (some [⟨5, "A", "a@x", "pw", ""⟩]) ⟨[], 0⟩).1 :=
  registerUser_duplicate_email_spec (some [⟨5, "A", "a@x", "pw", ""⟩]) ⟨[], 0⟩
    none "Z" "a@x" "q" (by decide)

/-- C8: login with an unknown email and login with a known email but wrong
password produce the identical failure outcome — same boolean, same state,
session untouched — so the two cases are indistinguishable to the caller;
when both email and password match exactly, the matched user becomes the
current session. -/
theorem loginUser_spec (src : Option (List User)) (st : UserState)
    (session : Option User) (e pw : String) :
    ((fetchUsers src st).1.find? (fun u => u.email == e) = none →
      loginUser src st session e pw = (false, (fetchUsers src st).2, session)) ∧
    (∀ u, (fetchUsers src st).1.find? (fun u => u.email == e) = some u →
      u.password ≠ pw →
      loginUser src st session e pw = (false, (fetchUsers src st).2, session)) ∧
    (∀ u, (fetchUsers src st).1.find? (fun u => u.email == e) = some u →
      u.password = pw →
      loginUser src st session e pw = (true, (fetchUsers src st).2, some u)) := by
  refine ⟨?_, ?_, ?_⟩
  · intro h
    simp [loginUser, h]
  · intro u hu hne
    have hbeq : (u.password == pw) = false := beq_eq_false_iff_ne.mpr hne
    simp [loginUser, hu, hbeq]
  · intro u hu hpw
    simp [loginUser, hu, hpw]

/-- C8 witness: against a one-user fixture, the unknown-email failure and
the wrong-password failure are the same triple, and the correct
credentials establish the session. -/
theorem loginUser_spec_witness :
    loginUser (some [⟨5, "A", "a@x", "pw", ""⟩]) ⟨[], 0⟩ none "z@x" "pw"
      = (false, (fetchUsers (some [⟨5, "A", "a@x", "pw", ""⟩]) ⟨[], 0⟩).2, none) ∧
    loginUser (some [⟨5, "A", "a@x", "pw", ""⟩]) ⟨[], 0⟩ none "a@x" "bad"
      = (false, (fetchUsers (some [⟨5, "A", "a@x", "pw", ""⟩]) ⟨[], 0⟩).2, none) ∧
    loginUser (some [⟨5, "A", "a@x", "pw", ""⟩]) ⟨[], 0⟩ none "a@x" "pw"
      = (true, (fetchUsers (some [⟨5, "A", "a@x", "pw", ""⟩]) ⟨[], 0⟩).2,
         some ⟨5, "A", "a@x", "pw", ""⟩) :=
  ⟨(loginUser_spec (some [⟨5, "A", "a@x", "pw", ""⟩]) ⟨[], 0⟩ none "z@x" "pw").1
      (by decide),
   (loginUser_spec (some [⟨5, "A", "a@x", "pw", ""⟩]) ⟨[], 0⟩ none "a@x" "bad").2.1
      ⟨5, "A", "a@x", "pw", ""⟩ (by decide) (by decide),
   (loginUser_spec (some [⟨5, "A", "a@x", "pw", ""⟩]) ⟨[], 0⟩ none "a@x" "pw").2.2
      ⟨5, "A", "a@x", "pw", ""⟩ (by decide) rfl⟩

/-- C9 counterexample: the code's "already seeded" test is
`sessionUsers.length > 0`, not a seeded flag. After a first successful call
that fetches an empty user list (a successful fetch of `[]`), the overlay
has been seeded, yet a later call fetches the source again: the fetch count
goes from 1 to 2, contradicting "no re-fetching after the overlay has been
seeded". -/
theorem fetchUsers_refetch_after_empty_seed :
    (fetchUsers (some ([] : List User)) ⟨[], 0⟩).2.fetches = 1 ∧
    (fetchUsers (some ([] : List User))
        ((fetchUsers (some ([] : List User)) ⟨[], 0⟩).2)).2.fetches = 2 := by
  decide

/-- C9 amended: `fetchUsers` seeds the session overlay with the fetched
list on a first successful call made with an empty overlay; and on every
call made while the overlay is non-empty — in particular after it has been
seeded with at least one user, or after any registration — it returns the
overlay as is, with the same state and fetch count (no re-fetch of the
fixture source). -/
theorem fetchUsers_seed_and_cache (src : Option (List User)) (st : UserState)
    (users : List User) :
    (st.sessionUsers = [] →
      fetchUsers (some users) st = (users, ⟨users, st.fetches + 1⟩)) ∧
    (st.sessionUsers ≠ [] → fetchUsers src st = (st.sessionUsers, st)) := by
  constructor
  · intro h
    unfold fetchUsers
    rw [if_neg (by simp [h])]
  · exact fetchUsers_of_nonempty src st

/-- C9 amended witness: a first call on an empty overlay seeds it with the
fetched user; a call on a non-empty overlay returns it unchanged without
fetching. -/
theorem fetchUsers_seed_and_cache_witness :
    fetchUsers (some [⟨5, "A", "a@x", "pw", ""⟩]) ⟨[], 0⟩
      = ([⟨5, "A", "a@x", "pw", ""⟩], ⟨[⟨5, "A", "a@x", "pw", ""⟩], 1⟩) ∧
    fetchUsers (some []) ⟨[⟨6, "B", "b@x", "q", ""⟩], 1⟩
      = ([⟨6, "B", "b@x", "q", ""⟩], ⟨[⟨6, "B", "b@x", "q", ""⟩], 1⟩) :=
  ⟨(fetchUsers_seed_and_cache (some []) ⟨[], 0⟩ [⟨5, "A", "a@x", "pw", ""⟩]).1 rfl,
   (fetchUsers_seed_and_cache (some []) ⟨[⟨6, "B", "b@x", "q", ""⟩], 1⟩ []).2
      (by decide)⟩
